import Mathlib

set_option maxHeartbeats 1000000

/-!
Shallow embedding of the BHVD focus-timer application
(src/unnamed/part_001), covering the session timer, the phase
derivation, the history persistence and the generative audio engine.
-/

-- ===== Views, records and App-level state (part_001 lines 6, 10-15, 397-424) =====

inductive View
| splash
| home
| session
| history
| settings
deriving DecidableEq

structure SessionRecord where
  id : String
  date : String
  duration : Nat
  completed : Bool
deriving DecidableEq

structure AppState where
  view : View
  history : List SessionRecord
deriving DecidableEq

/-- App.handleSessionComplete, part_001 lines 409-418: builds a record
with completed set to true from the ambient clock values, appends it to
the history and shows the home view. -/
def handleSessionComplete (nowId nowDate : String) (duration : Nat) (s : AppState) : AppState :=
  { view := View.home,
    history := s.history ++ [{ id := nowId, date := nowDate, duration := duration, completed := true }] }

/-- App.handleSessionExit, part_001 lines 420-424: on a confirmed early
exit only the view changes back to home; the history is untouched and no
record is produced. On a declined confirmation nothing happens. -/
def handleSessionExit (confirmed : Bool) (s : AppState) : AppState :=
  if confirmed then { s with view := View.home } else s

-- ===== History persistence (part_001 lines 399-407, 416) =====

/-- React state paired with the parsed content of the persisted
localStorage key bhvd_history. -/
structure AppH where
  history : List SessionRecord
  storage : List SessionRecord
deriving DecidableEq

/-- the useState initializer, part_001 lines 399-402: on startup the
history state is loaded from storage. -/
def initHistory (storage : List SessionRecord) : AppH :=
  { history := storage, storage := storage }

/-- the persistence useEffect, part_001 lines 404-407: it runs only after
a render commit and copies the current history state into storage. -/
def persistEffect (s : AppH) : AppH :=
  { s with storage := s.history }

/-- the setHistory call of handleSessionComplete, part_001 line 416:
updates the React state only; storage is untouched until the persistence
effect runs. -/
def appendRecord (r : SessionRecord) (s : AppH) : AppH :=
  { s with history := s.history ++ [r] }

/-- a process restart: the state is rebuilt from whatever storage holds,
through the useState initializer. -/
def restart (s : AppH) : AppH := initHistory s.storage

-- ===== Session timer (part_001 lines 142-165) =====

/-- the interval callback of the tick effect, part_001 line 159: each
delivered callback increments elapsed by one. -/
def tickCallback (e : Nat) : Nat := e + 1

/-- elapsed after a number of delivered interval callbacks since session
start. The wall-clock gap parameter models the real time that passed; it
plays no role in the computation, which counts delivered callbacks only
(part_001 lines 155-165 hold no timestamp at all). -/
def elapsedAfterCallbacks (wallGapSeconds : Nat) : Nat → Nat
| 0 => 0
| n + 1 => tickCallback (elapsedAfterCallbacks wallGapSeconds n)

-- ===== Gain automation timeline (Web Audio AudioParam semantics) =====

/-- a scheduled gain automation event: setValueAtTime or
linearRampToValueAtTime, each carrying its target value and its event
time (for a linear ramp, the event time is the ramp end time). -/
inductive GainEvent
| setValue (v : ℚ) (t : ℚ)
| linearRamp (v : ℚ) (t : ℚ)
deriving DecidableEq

def GainEvent.time : GainEvent → ℚ
| GainEvent.setValue _ t => t
| GainEvent.linearRamp _ t => t

def GainEvent.isRamp : GainEvent → Bool
| GainEvent.linearRamp _ _ => true
| _ => false

/-- cancelScheduledValues at time t: removes every event whose event time
is at or after t, per the Web Audio AudioParam specification. -/
def cancelScheduledValues (tl : List GainEvent) (t : ℚ) : List GainEvent :=
  tl.filter (fun e => decide (e.time < t))

/-- computed value of a chronologically ordered automation timeline at
time t, carrying the value v0 and time t0 of the previous event; a linear
ramp interpolates from the previous event to its own end time. -/
def paramValueAux (v0 t0 : ℚ) : List GainEvent → ℚ → ℚ
| [], _ => v0
| GainEvent.setValue v te :: rest, t =>
  if t < te then v0 else paramValueAux v te rest t
| GainEvent.linearRamp v te :: rest, t =>
  if te ≤ t then paramValueAux v te rest t
  else if t ≤ t0 then v0
  else v0 + (v - v0) * (t - t0) / (te - t0)

/-- the value the gain AudioParam reports at time t; v0 is the value the
param held before any scheduled event. -/
def paramValue (v0 : ℚ) (tl : List GainEvent) (t : ℚ) : ℚ :=
  paramValueAux v0 0 tl t

/-- the gain scheduling performed by AudioEngine.start, part_001 lines
65-67: cancelScheduledValues, then setValueAtTime 0, then a linear ramp
to 0.5 ending two seconds later. -/
def startGainOps (tl : List GainEvent) (t : ℚ) : List GainEvent :=
  cancelScheduledValues tl t
    ++ [GainEvent.setValue 0 t, GainEvent.linearRamp 0.5 (t + 2)]

/-- the gain scheduling performed by AudioEngine.stop, part_001 lines
74-77, in source order: cancelScheduledValues first, then the value of
gain.value is read from the already cancelled timeline, then
setValueAtTime of that value and a linear ramp to 0 ending one second
later. dv is the default value of the gain param (0.5, from init line 31). -/
def stopGainOps (dv : ℚ) (tl : List GainEvent) (t : ℚ) : List GainEvent :=
  let tl1 := cancelScheduledValues tl t
  let g := paramValue dv tl1 t
  tl1 ++ [GainEvent.setValue g t, GainEvent.linearRamp 0 (t + 1)]

/-- the events of a timeline still pending at time t. -/
def pendingAt (tl : List GainEvent) (t : ℚ) : List GainEvent :=
  tl.filter (fun e => decide (t ≤ e.time))

/-- the event time of the last scheduled ramp of a timeline. -/
def lastRampTime (tl : List GainEvent) : Option ℚ :=
  tl.foldl (fun acc e => if e.isRamp then some e.time else acc) none

-- ===== AudioEngine state machine (part_001 lines 19-85) =====

/-- the mutable fields of the AudioEngine class: whether the context was
created, the isPlaying flag, whether the source field is set, the gain
automation timeline, and the number of stop timeouts scheduled but not
yet fired. -/
structure AudioEngine where
  ctxInit : Bool
  isPlaying : Bool
  sourceSet : Bool
  timeline : List GainEvent
  pendingStops : Nat
deriving DecidableEq

/-- AudioEngine.init, part_001 lines 25-37: lazily allocates the audio
context; idempotent on the modelled state. -/
def AudioEngine.init (e : AudioEngine) : AudioEngine :=
  { e with ctxInit := true }

/-- AudioEngine.start, part_001 lines 39-68, called at wall time t:
initializes the context if needed, returns unchanged if isPlaying is
already true, otherwise creates and starts the looping source, sets
isPlaying and schedules the fade-in envelope. -/
def AudioEngine.start (e : AudioEngine) (t : ℚ) : AudioEngine :=
  let e1 := if e.ctxInit then e else e.init
  if e1.isPlaying then e1
  else { e1 with sourceSet := true, isPlaying := true,
                 timeline := startGainOps e1.timeline t }

/-- AudioEngine.stop, part_001 lines 70-84, called at wall time t:
returns unchanged unless isPlaying, source and ctx are all set;
otherwise schedules the fade-out envelope and a one second timeout.
The isPlaying flag is cleared only when that timeout later fires. -/
def AudioEngine.stop (e : AudioEngine) (t : ℚ) : AudioEngine :=
  if !e.isPlaying || !e.sourceSet || !e.ctxInit then e
  else { e with timeline := stopGainOps 0.5 e.timeline t,
                pendingStops := e.pendingStops + 1 }

/-- the body of the setTimeout scheduled by stop, part_001 lines 79-83:
stops and disconnects the source and clears isPlaying. -/
def AudioEngine.fireStopTimeout (e : AudioEngine) : AudioEngine :=
  if e.pendingStops = 0 then e
  else { e with pendingStops := e.pendingStops - 1, isPlaying := false }

/-- the engine state right after a session started audio at time 0. -/
def ePlay : AudioEngine :=
  AudioEngine.start
    { ctxInit := false, isPlaying := false, sourceSet := false,
      timeline := [], pendingStops := 0 } 0

-- ===== Session phases (part_001 lines 8, 136-152) =====

inductive SessionPhase
| entry
| immersion
| return_
deriving DecidableEq

/-- the configuration constants of SessionView, part_001 lines 136-140. -/
def TOTAL_TIME : Nat := 20 * 60

def PHASE_1_END : Nat := 2 * 60

def PHASE_2_END : Nat := 18 * 60

/-- the phase derivation of SessionView, part_001 lines 148-152: a pure
function of elapsed over the three phase values of the code. -/
def phase (elapsed : Nat) : SessionPhase :=
  if elapsed < PHASE_1_END then SessionPhase.entry
  else if elapsed < PHASE_2_END then SessionPhase.immersion
  else SessionPhase.return_

inductive SpecSessionPhase
| entry
| immersion
| return_
| completed
deriving DecidableEq

structure SessionConfig where
  totalDurationSeconds : Nat
  entryEndSeconds : Nat
  immersionEndSeconds : Nat
deriving DecidableEq

/-- Modelled from the spec: the four-valued phase derivation of section
4.3, with elapsed below entryEnd giving Entry, below immersionEnd giving
Immersion, below totalDuration giving Return, and otherwise Completed.
Declared only for comparison against the phase function of the code. -/
def phaseSpec (cfg : SessionConfig) (elapsed : Nat) : SpecSessionPhase :=
  if elapsed < cfg.entryEndSeconds then SpecSessionPhase.entry
  else if elapsed < cfg.immersionEndSeconds then SpecSessionPhase.immersion
  else if elapsed < cfg.totalDurationSeconds then SpecSessionPhase.return_
  else SpecSessionPhase.completed

/-- the embedding of the three code phases into the spec phases. -/
def SessionPhase.toSpec : SessionPhase → SpecSessionPhase
| SessionPhase.entry => SpecSessionPhase.entry
| SessionPhase.immersion => SpecSessionPhase.immersion
| SessionPhase.return_ => SpecSessionPhase.return_

/-- the only configuration the code has, its three hardcoded constants. -/
def defaultConfig : SessionConfig :=
  { totalDurationSeconds := TOTAL_TIME,
    entryEndSeconds := PHASE_1_END,
    immersionEndSeconds := PHASE_2_END }

-- ===== Completion transition (part_001 lines 155-165, 174, 179-182, 409-418) =====

/-- the observable actions of the completion path. -/
inductive AppEvent
| audioStop
| emitRecord (duration : Nat) (completed : Bool)
| setViewHome
deriving DecidableEq

def AppEvent.isStop : AppEvent → Bool
| AppEvent.audioStop => true
| _ => false

def AppEvent.recordOf : AppEvent → Option (Nat × Bool)
| AppEvent.emitRecord d c => some (d, c)
| _ => none

def stopCount (l : List AppEvent) : Nat :=
  (l.filter AppEvent.isStop).length

def recordsOf (l : List AppEvent) : List (Nat × Bool) :=
  l.filterMap AppEvent.recordOf

/-- SessionView.handleComplete, part_001 lines 179-182, together with the
onComplete handler App.handleSessionComplete, lines 409-418: stops the
audio engine, emits one completed record carrying the current elapsed,
and switches the view to home. -/
def handleCompleteEvents (elapsed : Nat) : List AppEvent :=
  [AppEvent.audioStop, AppEvent.emitRecord elapsed true, AppEvent.setViewHome]

/-- unmounting SessionView runs the cleanup of the audio effect, part_001
line 174, which calls AudioEngine.stop once more. -/
def unmountEvents : List AppEvent :=
  [AppEvent.audioStop]

/-- the events emitted when the tick effect observes elapsed at or past
TOTAL_TIME, part_001 lines 161-163: handleComplete runs, and the view
change it triggers unmounts SessionView. -/
def completionEvents (elapsed : Nat) : List AppEvent :=
  handleCompleteEvents elapsed ++ unmountEvents

/-- the tick effect loop, part_001 lines 155-165: while elapsed is below
TOTAL_TIME each interval firing increments elapsed by one; the fuel
argument bounds the number of firings considered. -/
def tickLoop : Nat → Nat → Nat
| 0, e => e
| n + 1, e => if e < TOTAL_TIME then tickLoop n (tickCallback e) else e

-- ===== Brown noise generator (part_001 lines 47-55) =====

/-- one step of the leaky integrator, part_001 line 52. -/
def brownStep (lastOut white : ℚ) : ℚ :=
  (lastOut + 0.02 * white) / 1.02

/-- the scaling of one output sample, part_001 lines 53-54: the new
filter state times 3.5, then times 0.1. -/
def brownSample (lastOut : ℚ) : ℚ :=
  lastOut * 3.5 * 0.1

/-- the brown-noise buffer loop, part_001 lines 47-55, over an explicit
list of white samples, carrying the filter state lastOut (initially 0 at
line 47). -/
def brownNoise : ℚ → List ℚ → List ℚ
| _, [] => []
| lastOut, w :: ws => brownSample (brownStep lastOut w) :: brownNoise (brownStep lastOut w) ws

-- ===== Theorems for C1, C2, C3 =====

/-- C1: the elapsed time of the code is a count of delivered interval
callbacks, not a wall-clock delta: after a 300 second wall-clock gap with
a single delivered tick, elapsed is 1, far from the 300 plus or minus 1
the claim requires. -/
theorem tick_counter_ignores_wallclock :
  elapsedAfterCallbacks 300 1 = 1
  ∧ ¬ (299 ≤ elapsedAfterCallbacks 300 1 ∧ elapsedAfterCallbacks 300 1 ≤ 301) := by
  decide

/-- C2: a confirmed early exit returns to the home view but appends no
SessionRecord at all; the history stays empty. -/
theorem abort_appends_no_record :
  (handleSessionExit true { view := View.session, history := [] }).history = []
  ∧ (handleSessionExit true { view := View.session, history := [] }).view = View.home := by
  exact ⟨rfl, rfl⟩

/-- C3 counterexample: a restart immediately after appendRecord, before
the persistence effect has run, loses the record: the reloaded history is
empty although the in-memory history held the record. -/
theorem append_then_restart_loses_record :
  (restart (appendRecord { id := "1", date := "d", duration := 42, completed := false }
      (initHistory []))).history = []
  ∧ (appendRecord { id := "1", date := "d", duration := 42, completed := false }
      (initHistory [])).history
    = [{ id := "1", date := "d", duration := 42, completed := false }] := by
  exact ⟨rfl, rfl⟩

/-- C3 amended: once the persistence effect has run after an append, a
restart reloads exactly the previous history with the appended record,
field for field. -/
theorem append_persist_restart_roundtrip (r : SessionRecord) (s : AppH) :
  (restart (persistEffect (appendRecord r s))).history = s.history ++ [r]
  ∧ (restart (persistEffect (appendRecord r s))).storage = s.history ++ [r] := by
  exact ⟨rfl, rfl⟩

-- ===== Theorems for C4, C7, C8, C10 =====

theorem pendingAt_cancel (tl : List GainEvent) (t : ℚ) :
  pendingAt (cancelScheduledValues tl t) t = [] := by
  refine List.filter_eq_nil_iff.mpr ?_
  intro e he
  have h1 : e.time < t := by
    have := List.of_mem_filter he
    simpa using this
  simp only [decide_eq_true_eq]
  linarith

/-- C7: each of the two envelope-scheduling operations cancels every
pending scheduled gain change first, so the events still pending right
after the operation are exactly the setValueAtTime and the single linear
ramp it scheduled itself; in particular exactly one ramp is pending. -/
theorem envelope_exclusive (tl : List GainEvent) (t dv : ℚ) :
  pendingAt (startGainOps tl t) t
    = [GainEvent.setValue 0 t, GainEvent.linearRamp 0.5 (t + 2)]
  ∧ pendingAt (stopGainOps dv tl t) t
    = [GainEvent.setValue (paramValue dv (cancelScheduledValues tl t) t) t,
       GainEvent.linearRamp 0 (t + 1)]
  ∧ ((pendingAt (startGainOps tl t) t).filter GainEvent.isRamp).length = 1
  ∧ ((pendingAt (stopGainOps dv tl t) t).filter GainEvent.isRamp).length = 1 := by
  have hc := pendingAt_cancel tl t
  have ht : t ≤ t := le_refl t
  have ht2 : t ≤ t + 2 := by linarith
  have ht1 : t ≤ t + 1 := by linarith
  have hstart : pendingAt (startGainOps tl t) t
      = [GainEvent.setValue 0 t, GainEvent.linearRamp 0.5 (t + 2)] := by
    unfold startGainOps
    unfold pendingAt at hc ⊢
    rw [List.filter_append, hc]
    simp [GainEvent.time, ht, ht2]
  have hstop : pendingAt (stopGainOps dv tl t) t
      = [GainEvent.setValue (paramValue dv (cancelScheduledValues tl t) t) t,
         GainEvent.linearRamp 0 (t + 1)] := by
    unfold stopGainOps
    unfold pendingAt at hc ⊢
    rw [List.filter_append, hc]
    simp [GainEvent.time, ht, ht1]
  refine ⟨hstart, hstop, ?_, ?_⟩
  · rw [hstart]; simp [GainEvent.isRamp]
  · rw [hstop]; simp [GainEvent.isRamp]

/-- C8: with a fade-in started at time 0, the gain observed at time 1 is
the partial value one quarter; but stop at time 1 reads gain.value only
after cancelScheduledValues has removed the ramp, so the fade-out it
schedules starts from 0, and the computed gain right after stop is 0: a
discontinuous jump from one quarter to silence, not a fade-out from the
partial gain. -/
theorem stop_during_fadein_snaps_to_zero :
  paramValue 0.5 (startGainOps [] 0) 1 = 1 / 4
  ∧ stopGainOps 0.5 (startGainOps [] 0) 1
      = [GainEvent.setValue 0 0, GainEvent.setValue 0 1, GainEvent.linearRamp 0 2]
  ∧ paramValue 0.5 (stopGainOps 0.5 (startGainOps [] 0) 1) 1 = 0 := by
  refine ⟨?_, ?_, ?_⟩ <;>
    norm_num [paramValue, paramValueAux, startGainOps, stopGainOps,
      cancelScheduledValues, GainEvent.time, List.filter]

/-- C4: a second stop half a second into the fade-out of a first stop is
not a no-op: isPlaying is still true, so the code re-enters the fade
path, cancels the first ramp (which ended at time 11), schedules a fresh
ramp ending at time 11.5 and a second stop timeout. -/
theorem second_stop_restarts_fade :
  (AudioEngine.stop (AudioEngine.stop ePlay 10) (21 / 2)).pendingStops = 2
  ∧ lastRampTime (AudioEngine.stop ePlay 10).timeline = some 11
  ∧ lastRampTime (AudioEngine.stop (AudioEngine.stop ePlay 10) (21 / 2)).timeline
      = some (23 / 2)
  ∧ AudioEngine.stop (AudioEngine.stop ePlay 10) (21 / 2) ≠ AudioEngine.stop ePlay 10 := by
  have hp2 : (AudioEngine.stop (AudioEngine.stop ePlay 10) (21 / 2)).pendingStops = 2 := by
    decide
  have hp1 : (AudioEngine.stop ePlay 10).pendingStops = 1 := by
    decide
  refine ⟨hp2, ?_, ?_, ?_⟩
  · norm_num [lastRampTime, AudioEngine.stop, AudioEngine.start, AudioEngine.init,
      ePlay, paramValue, paramValueAux, startGainOps, stopGainOps,
      cancelScheduledValues, GainEvent.time, GainEvent.isRamp, List.filter, List.foldl]
  · norm_num [lastRampTime, AudioEngine.stop, AudioEngine.start, AudioEngine.init,
      ePlay, paramValue, paramValueAux, startGainOps, stopGainOps,
      cancelScheduledValues, GainEvent.time, GainEvent.isRamp, List.filter, List.foldl]
  · intro h
    rw [h, hp1] at hp2
    exact absurd hp2 (by decide)

/-- C10: while a stop timeout is pending the isPlaying flag stays true,
so a start call inside the fade-out window returns the state unchanged
(no new source, no fade-in scheduled); only when the timeout fires does
isPlaying become false. -/
theorem start_noop_during_fadeout (e : AudioEngine) (t tq : ℚ)
    (h1 : e.isPlaying = true) (h2 : e.sourceSet = true) (h3 : e.ctxInit = true) :
  (AudioEngine.stop e t).isPlaying = true
  ∧ AudioEngine.start (AudioEngine.stop e t) tq = AudioEngine.stop e t
  ∧ (AudioEngine.fireStopTimeout (AudioEngine.stop e t)).isPlaying = false := by
  simp [AudioEngine.stop, AudioEngine.start, AudioEngine.fireStopTimeout, h1, h2, h3]

/-- witness for C10 at a concrete engine state and concrete times. -/
theorem start_noop_during_fadeout_witness :
  (ePlay.isPlaying = true ∧ ePlay.sourceSet = true ∧ ePlay.ctxInit = true)
  ∧ AudioEngine.start (AudioEngine.stop ePlay 10) (21 / 2) = AudioEngine.stop ePlay 10 := by
  exact ⟨⟨by decide, by decide, by decide⟩,
    (start_noop_during_fadeout ePlay 10 (21 / 2) (by decide) (by decide) (by decide)).2.1⟩

-- ===== Theorems for C5, C6 =====

/-- C5 counterexample: at elapsed 1200, equal to the total duration, the
phase of the code is still return_, not Completed; the code has no
Completed phase value at all, so it disagrees there with the four-valued
derivation the claim states. -/
theorem phase_at_total_not_completed :
  SessionPhase.toSpec (phase 1200) ≠ phaseSpec defaultConfig 1200
  ∧ phase 1200 = SessionPhase.return_
  ∧ phaseSpec defaultConfig 1200 = SpecSessionPhase.completed := by
  decide

/-- C5 amended: the phase is a pure threshold function, inclusive on the
lower bound and exclusive on the upper; it agrees with the spec
derivation for every elapsed below the total duration, and at or past
the total duration it stays return_ instead of becoming Completed. The
boundary examples of the claim hold. -/
theorem phase_thresholds_amended :
  (∀ e, e < TOTAL_TIME → SessionPhase.toSpec (phase e) = phaseSpec defaultConfig e)
  ∧ (∀ e, TOTAL_TIME ≤ e → phase e = SessionPhase.return_)
  ∧ phase 119 = SessionPhase.entry
  ∧ phase 120 = SessionPhase.immersion
  ∧ phase 1199 = SessionPhase.return_ := by
  refine ⟨?_, ?_, by decide, by decide, by decide⟩
  · intro e he
    simp only [phase, phaseSpec, defaultConfig, TOTAL_TIME, PHASE_1_END, PHASE_2_END] at he ⊢
    split_ifs <;> simp_all [SessionPhase.toSpec]
  · intro e he
    simp only [phase, TOTAL_TIME, PHASE_1_END, PHASE_2_END] at he ⊢
    split_ifs <;> first | rfl | omega

/-- witness for the amended C5 at concrete elapsed values. -/
theorem phase_thresholds_amended_witness :
  (600 < TOTAL_TIME ∧ SessionPhase.toSpec (phase 600) = phaseSpec defaultConfig 600)
  ∧ (TOTAL_TIME ≤ 5000 ∧ phase 5000 = SessionPhase.return_) := by
  exact ⟨⟨by decide, phase_thresholds_amended.1 600 (by decide)⟩,
    ⟨by decide, phase_thresholds_amended.2.1 5000 (by decide)⟩⟩

theorem tickLoop_reaches_total (fuel : Nat) :
  ∀ e, e ≤ TOTAL_TIME → TOTAL_TIME ≤ e + fuel → tickLoop fuel e = TOTAL_TIME := by
  induction fuel with
  | zero =>
    intro e h1 h2
    simp only [tickLoop]
    omega
  | succ n ih =>
    intro e h1 h2
    by_cases h : e < TOTAL_TIME
    · simp only [tickLoop, if_pos h, tickCallback]
      exact ih (e + 1) (by omega) (by omega)
    · simp only [tickLoop, if_neg h]
      omega

/-- C6 counterexample: on the transition into completion the code emits
exactly one completed record carrying elapsed 1200, but AudioEngine.stop
is invoked twice, once by handleComplete and once by the unmount cleanup
of the audio effect, so the count of stop invocations is not one. -/
theorem completion_stop_called_twice :
  stopCount (completionEvents TOTAL_TIME) = 2
  ∧ ¬ stopCount (completionEvents TOTAL_TIME) = 1
  ∧ recordsOf (completionEvents TOTAL_TIME) = [(1200, true)] := by
  decide

/-- C6 amended: with enough interval firings the elapsed counter reaches
exactly the total duration and stops incrementing; the completion path
then emits exactly one SessionRecord, completed and carrying elapsed
equal to TOTAL_TIME, while AudioEngine.stop is invoked twice rather than
once. -/
theorem completion_emits_once (fuel : Nat) (h : TOTAL_TIME ≤ fuel) :
  tickLoop fuel 0 = TOTAL_TIME
  ∧ recordsOf (completionEvents (tickLoop fuel 0)) = [(TOTAL_TIME, true)]
  ∧ stopCount (completionEvents (tickLoop fuel 0)) = 2 := by
  have ht : tickLoop fuel 0 = TOTAL_TIME :=
    tickLoop_reaches_total fuel 0 (by omega) (by omega)
  rw [ht]
  exact ⟨rfl, rfl, rfl⟩

/-- witness for the amended C6 with fuel 1200. -/
theorem completion_emits_once_witness :
  TOTAL_TIME ≤ 1200
  ∧ recordsOf (completionEvents (tickLoop 1200 0)) = [(TOTAL_TIME, true)] := by
  exact ⟨by decide, (completion_emits_once 1200 (by decide)).2.1⟩

-- ===== Theorems for C9 =====

theorem abs_brownStep_le (l w : ℚ) (hl : |l| ≤ 1) (hw : |w| ≤ 1) :
  |brownStep l w| ≤ 1 := by
  unfold brownStep
  rw [abs_div, abs_of_pos (show (0:ℚ) < 1.02 by norm_num),
    div_le_one (show (0:ℚ) < 1.02 by norm_num)]
  calc |l + 0.02 * w| ≤ |l| + |0.02 * w| := abs_add _ _
    _ = |l| + 0.02 * |w| := by
        rw [abs_mul, abs_of_pos (show (0:ℚ) < 0.02 by norm_num)]
    _ ≤ 1 + 0.02 * 1 := by
        have hmul : 0.02 * |w| ≤ 0.02 * 1 :=
          mul_le_mul_of_nonneg_left hw (by norm_num)
        linarith
    _ ≤ 1.02 := by norm_num

theorem abs_brownSample_le (l : ℚ) (hl : |l| ≤ 1) : |brownSample l| ≤ 7 / 20 := by
  unfold brownSample
  rw [abs_mul, abs_mul, abs_of_pos (show (0:ℚ) < 3.5 by norm_num),
    abs_of_pos (show (0:ℚ) < 0.1 by norm_num)]
  nlinarith [abs_nonneg l]

theorem brownNoise_bound (ws : List ℚ) :
  ∀ l, |l| ≤ 1 → (∀ w ∈ ws, |w| ≤ 1) → ∀ s ∈ brownNoise l ws, |s| ≤ 7 / 20 := by
  induction ws with
  | nil =>
    intro l _ _ s hs
    simp [brownNoise] at hs
  | cons w ws ih =>
    intro l hl hws s hs
    simp only [brownNoise, List.mem_cons] at hs
    have hw : |w| ≤ 1 := hws w (List.mem_cons_self _ _)
    have hl2 : |brownStep l w| ≤ 1 := abs_brownStep_le l w hl hw
    rcases hs with hs | hs
    · subst hs
      exact abs_brownSample_le _ hl2
    · exact ih (brownStep l w) hl2 (fun x hx => hws x (List.mem_cons_of_mem _ hx)) s hs

/-- C9: the noise generator is a pure function of the white inputs, so
two runs on equal input sequences produce identical samples; and for
white inputs within one in absolute value and initial filter state 0,
every generated sample is within 7 divided by 20, that is 0.35, in
absolute value, for any number of consecutive samples. -/
theorem noise_deterministic_bounded (ws ws2 : List ℚ) (h : ∀ w ∈ ws, |w| ≤ 1) :
  (ws2 = ws → brownNoise 0 ws2 = brownNoise 0 ws)
  ∧ ∀ s ∈ brownNoise 0 ws, |s| ≤ 7 / 20 := by
  refine ⟨fun he => by rw [he], ?_⟩
  exact brownNoise_bound ws 0 (by norm_num) h

/-- witness for C9 on a concrete input sequence. -/
theorem noise_deterministic_bounded_witness :
  (∀ w ∈ [(1:ℚ), -1, 1/2], |w| ≤ 1)
  ∧ ∀ s ∈ brownNoise 0 [(1:ℚ), -1, 1/2], |s| ≤ 7 / 20 := by
  have h : ∀ w ∈ [(1:ℚ), -1, 1/2], |w| ≤ 1 := by
    intro w hw
    simp only [List.mem_cons, List.not_mem_nil, or_false] at hw
    rcases hw with rfl | rfl | rfl
    · rw [abs_one]
    · rw [abs_neg, abs_one]
    · rw [abs_of_pos (show (0:ℚ) < 1/2 by norm_num)]
      norm_num
  exact ⟨h, (noise_deterministic_bounded [(1:ℚ), -1, 1/2] [(1:ℚ), -1, 1/2] h).2⟩
